import Mathlib

/-!
Shallow embedding of the `quick-sas7bdat` SAS7BDAT binary reader
(`src/lib.rs`, `src/byte_reader.rs`) and proofs about its header,
page and sub-header decoding logic.

Rust `Result`/`bail!` errors are modelled by `Outcome.err`; Rust panics
(out-of-range slice indexing, and the `byteorder` crate's length
assertions, which panic on short input) are modelled by `Outcome.crash`.
Machine bytes are `Nat`s (each in `[0, 256)` for real inputs); `usize`
is modelled by `Nat` and the signed types by `Int` with explicit
two's-complement conversion.
-/

/-- Result of running a piece of Rust code: normal return, an
`error-chain` error propagated with the question-mark operator, or a
panic/abort (no error value is produced in that case). -/
inductive Outcome (α : Type) : Type where
  | ok (a : α) : Outcome α
  | err (msg : String) : Outcome α
  | crash : Outcome α
deriving DecidableEq, Repr

def Outcome.bind {α β : Type} : Outcome α → (α → Outcome β) → Outcome β
  | .ok a, f => f a
  | .err m, _ => .err m
  | .crash, _ => .crash

def Outcome.isOk {α : Type} : Outcome α → Bool
  | .ok _ => true
  | _ => false

def Outcome.isErr {α : Type} : Outcome α → Bool
  | .err _ => true
  | _ => false

def Outcome.toOption {α : Type} : Outcome α → Option α
  | .ok a => some a
  | _ => none

/-- Big-endian value of a byte list (first byte most significant),
as computed by the `byteorder` crate on the first `w` bytes. -/
def beVal (l : List Nat) : Nat := l.foldl (fun acc b => acc * 256 + b) 0

/-- Little-endian value of a byte list (first byte least significant). -/
def leVal (l : List Nat) : Nat := beVal l.reverse

/-- Combine the first `w` bytes of a buffer in the given byte order. -/
def wordVal (isLittleEndian : Bool) (w : Nat) (buf : List Nat) : Nat :=
  if isLittleEndian then leVal (buf.take w) else beVal (buf.take w)

/-- Reinterpret an unsigned `8*w`-bit value as a two's-complement signed one. -/
def toSigned (w : Nat) (n : Nat) : Int :=
  if n < 2 ^ (8 * w - 1) then (n : Int) else (n : Int) - 2 ^ (8 * w)

/-- Rust `v as usize` on an `i32`, on a 64-bit target: sign-extend and
reinterpret as an unsigned 64-bit value. -/
def i32_as_usize (v : Int) : Nat := (v % 2 ^ 64).toNat

/-- Rust range slice `&buf[a..b]`: panics unless `a <= b <= buf.len()`. -/
def rslice (buf : List Nat) (a b : Nat) : Outcome (List Nat) :=
  if a ≤ b ∧ b ≤ buf.length then .ok ((buf.drop a).take (b - a)) else .crash

/-- Rust open slice `&buf[a..]`: panics unless `a <= buf.len()`. -/
def rsliceFrom (buf : List Nat) (a : Nat) : Outcome (List Nat) :=
  if a ≤ buf.length then .ok (buf.drop a) else .crash

/-- Rust indexing `buf[i]`: panics when out of range. -/
def rindex (buf : List Nat) (i : Nat) : Outcome Nat :=
  if i < buf.length then .ok (buf.getD i 0) else .crash

/-- Rust `read.read_exact` on a stream of remaining bytes: returns the
filled buffer and the rest of the stream, or an I/O error (`Outcome.err`,
propagated by `?` in the source). -/
def readExact (n : Nat) (s : List Nat) : Outcome (List Nat × List Nat) :=
  if n ≤ s.length then .ok (s.take n, s.drop n) else .err "io"

/-- `ByteReader` from `src/byte_reader.rs`: the configuration the closure
table is built from (`ByteReader::from_bool(is_little_endian, is_64)`).
The fixed-width reads delegate to the `byteorder` crate, which reads the
first `w` bytes of the slice and panics when the slice is shorter than
`w`; the native-width reads use 8 bytes when `is_64` and 4 otherwise. -/
structure ByteReader : Type where
  isLittleEndian : Bool
  is64 : Bool
deriving DecidableEq, Repr

/-- The `byteorder` primitive underlying every unsigned read: the first
`w` bytes combined in the configured byte order; panic when fewer than
`w` bytes are available. -/
def ByteReader.readUnsignedW (r : ByteReader) (w : Nat) (buf : List Nat) : Outcome Nat :=
  if w ≤ buf.length then .ok (wordVal r.isLittleEndian w buf) else .crash

def ByteReader.read_u16 (r : ByteReader) (buf : List Nat) : Outcome Nat :=
  r.readUnsignedW 2 buf

def ByteReader.read_i32 (r : ByteReader) (buf : List Nat) : Outcome Int :=
  match r.readUnsignedW 4 buf with
  | .ok n => .ok (toSigned 4 n)
  | .err m => .err m
  | .crash => .crash

def ByteReader.read_i64 (r : ByteReader) (buf : List Nat) : Outcome Int :=
  match r.readUnsignedW 8 buf with
  | .ok n => .ok (toSigned 8 n)
  | .err m => .err m
  | .crash => .crash

/-- The native word width of the configuration: 8 bytes for 64-bit
readers, 4 for 32-bit ones. -/
def ByteReader.wordWidth (r : ByteReader) : Nat := if r.is64 then 8 else 4

def ByteReader.read_usize (r : ByteReader) (buf : List Nat) : Outcome Nat :=
  r.readUnsignedW r.wordWidth buf

def ByteReader.read_isize (r : ByteReader) (buf : List Nat) : Outcome Int :=
  match r.readUnsignedW r.wordWidth buf with
  | .ok n => .ok (toSigned r.wordWidth n)
  | .err m => .err m
  | .crash => .crash

/-- `Compression` from `src/lib.rs`. -/
inductive Compression : Type where
  | Uncompressed
  | Truncated
  | RLE
deriving DecidableEq, Repr

/-- `Compression::from_u8`: codes 0, 1, 4; anything else is an error. -/
def Compression.from_u8 (compression : Nat) : Outcome Compression :=
  if compression = 0 then .ok .Uncompressed
  else if compression = 1 then .ok .Truncated
  else if compression = 4 then .ok .RLE
  else .err ("Unrecognized compression: " ++ toString compression)

/-- `Compression::is_truncated`. -/
def Compression.is_truncated : Compression → Bool
  | .Truncated => true
  | _ => false

/-- `PageType` from `src/lib.rs`. -/
inductive PageType : Type where
  | Meta
  | Amd
  | Mix
  | Data
deriving DecidableEq, Repr

/-- `PageType::from_u16`. -/
def PageType.from_u16 (page_type : Nat) : Outcome PageType :=
  if page_type = 0 then .ok .Meta
  else if page_type = 1024 then .ok .Amd
  else if page_type = 512 ∨ page_type = 640 then .ok .Mix
  else if page_type = 256 then .ok .Data
  else .err ("Invalid page type " ++ toString page_type)

/-- `PageType::has_sub_header`: only `Data` pages lack a sub-header table. -/
def PageType.has_sub_header : PageType → Bool
  | .Data => false
  | _ => true

/-- The decoded fields of `Page` (`col_names` stays empty in the source
and is omitted). -/
structure Page : Type where
  page_type : PageType
  block_count : Nat
  row_len : Nat
  row_count : Nat
  col_count_p1 : Nat
  col_count_p2 : Nat
  mix_page_row_count : Nat
  lcp : Nat
  lcs : Nat
  col_count : Nat
deriving DecidableEq, Repr

/-- `Page::default()`: `PageType`'s `Default` impl yields `Data`, the
numeric fields default to 0. -/
def Page.mkDefault : Page := ⟨.Data, 0, 0, 0, 0, 0, 0, 0, 0, 0⟩

/-- The fields of `Reader<R>` other than the inner stream (the stream is
passed separately wherever the source does I/O). -/
structure ReaderSt : Type where
  page_num : Nat
  byte_reader : ByteReader
  encoding_code : Nat
  page_len : Nat
  page_count : Nat
  word_len : Nat
  page_start : Nat
  sub_header_len : Nat
deriving DecidableEq, Repr

/-- `SubHeaderPtr` from `src/lib.rs`. -/
structure SubHeaderPtr : Type where
  offset : Nat
  len : Nat
  compression : Compression
  typ : Nat
deriving DecidableEq, Repr

/-- `SubHeaderPtr::new`: offset and length are native-width reads at 0 and
`word_len`, the compression byte sits at `2*word_len` and the type byte
at `2*word_len + 1`. -/
def SubHeaderPtr.new (reader : ReaderSt) (buf : List Nat) : Outcome SubHeaderPtr :=
  Outcome.bind (rslice buf 0 reader.word_len) fun s1 =>
  Outcome.bind (reader.byte_reader.read_usize s1) fun offset =>
  Outcome.bind (rslice buf reader.word_len (2 * reader.word_len)) fun s2 =>
  Outcome.bind (reader.byte_reader.read_usize s2) fun len =>
  Outcome.bind (rindex buf (2 * reader.word_len)) fun cbyte =>
  Outcome.bind (Compression.from_u8 cbyte) fun compression =>
  Outcome.bind (rindex buf (2 * reader.word_len + 1)) fun typ =>
  .ok ⟨offset, len, compression, typ⟩

/-- `check_size`: note that the source ignores its `len32`/`len64`
arguments and matches `(4, 480) | (8, 808)` literally, so every caller
gets the same 480/808 gate. -/
def check_size (name : String) (buf : List Nat) (word_len len32 len64 : Nat) :
    Outcome Unit :=
  if (word_len = 4 ∧ buf.length = 480) ∨ (word_len = 8 ∧ buf.length = 808) then .ok ()
  else .err ("Invalid " ++ name ++ " sub header length (" ++ toString buf.length
      ++ ") for word len " ++ toString word_len)

/-- Native-width read at `&buf[off..]`, as in `read_usize(&buf[off..])`. -/
def readUsizeAt (reader : ReaderSt) (buf : List Nat) (off : Nat) : Outcome Nat :=
  Outcome.bind (rsliceFrom buf off) reader.byte_reader.read_usize

/-- 16-bit read at `&buf[a..a+2]`. -/
def readU16Slice (reader : ReaderSt) (buf : List Nat) (a : Nat) : Outcome Nat :=
  Outcome.bind (rslice buf a (a + 2)) reader.byte_reader.read_u16

/-- `Page::process_row_size`. -/
def processRowSize (reader : ReaderSt) (page : Page) (buf : List Nat) : Outcome Page :=
  Outcome.bind (check_size "row size" buf reader.word_len 480 808) fun _ =>
  Outcome.bind (readUsizeAt reader buf (5 * reader.word_len)) fun row_len =>
  Outcome.bind (readUsizeAt reader buf (6 * reader.word_len)) fun row_count =>
  Outcome.bind (readUsizeAt reader buf (9 * reader.word_len)) fun p1 =>
  Outcome.bind (readUsizeAt reader buf (10 * reader.word_len)) fun p2 =>
  Outcome.bind (readUsizeAt reader buf (15 * reader.word_len)) fun mix =>
  let lcs_off := if reader.word_len = 4 then 354 else 682
  let lcp_off := if reader.word_len = 4 then 378 else 706
  Outcome.bind (readU16Slice reader buf lcs_off) fun lcs =>
  Outcome.bind (readU16Slice reader buf lcp_off) fun lcp =>
  .ok { page with row_len := row_len, row_count := row_count,
                  col_count_p1 := p1, col_count_p2 := p2,
                  mix_page_row_count := mix, lcs := lcs, lcp := lcp }

/-- `Page::process_column_size`: the cross-check against
`col_count_p1 + col_count_p2` only emits a `warn!` log line; it has no
effect on the returned value. -/
def processColumnSize (reader : ReaderSt) (page : Page) (buf : List Nat) : Outcome Page :=
  Outcome.bind (check_size "column size" buf reader.word_len 12 24) fun _ =>
  Outcome.bind (readUsizeAt reader buf (1 * reader.word_len)) fun col_count =>
  .ok { page with col_count := col_count }

/-- `Page::process_column_text` (reads `block_size` and the compression
name slice, then returns without storing anything). -/
def processColumnText (reader : ReaderSt) (page : Page) (buf : List Nat) : Outcome Page :=
  Outcome.bind (rsliceFrom buf reader.word_len) fun tail =>
  Outcome.bind (reader.byte_reader.read_u16 tail) fun _block_size =>
  let start := if reader.word_len = 4 then 16 else 20
  Outcome.bind (rslice buf start (start + 8)) fun _comp_name =>
  .ok page

/-- The four signature byte patterns of the `RowSize` sub-header
(`process_sub_header`, first match group). -/
def rowSizeSigs : List (List Nat) :=
  [[0xF7, 0xF7, 0xF7, 0xF7],
   [0x00, 0x00, 0x00, 0x00, 0xF7, 0xF7, 0xF7, 0xF7],
   [0xF7, 0xF7, 0xF7, 0xF7, 0x00, 0x00, 0x00, 0x00],
   [0xF7, 0xF7, 0xF7, 0xF7, 0xFF, 0xFF, 0xFB, 0xFE]]

/-- `ColumnSize` signature patterns. -/
def columnSizeSigs : List (List Nat) :=
  [[0xF6, 0xF6, 0xF6, 0xF6],
   [0x00, 0x00, 0x00, 0x00, 0xF6, 0xF6, 0xF6, 0xF6],
   [0xF6, 0xF6, 0xF6, 0xF6, 0x00, 0x00, 0x00, 0x00],
   [0xF6, 0xF6, 0xF6, 0xF6, 0xFF, 0xFF, 0xFB, 0xFE]]

/-- `Counts` signature patterns. -/
def countsSigs : List (List Nat) :=
  [[0x00, 0xFC, 0xFF, 0xFF],
   [0xFF, 0xFF, 0xFC, 0x00],
   [0x00, 0xFC, 0xFF, 0xFF, 0xFF, 0xFF, 0xFF, 0xFF],
   [0xFF, 0xFF, 0xFF, 0xFF, 0xFF, 0xFF, 0xFC, 0x00]]

/-- `ColumnText` signature patterns. -/
def columnTextSigs : List (List Nat) :=
  [[0xFD, 0xFF, 0xFF, 0xFF],
   [0xFF, 0xFF, 0xFF, 0xFD],
   [0xFD, 0xFF, 0xFF, 0xFF, 0xFF, 0xFF, 0xFF, 0xFF],
   [0xFF, 0xFF, 0xFF, 0xFF, 0xFF, 0xFF, 0xFF, 0xFD]]

/-- `ColumnName` signature patterns. -/
def columnNameSigs : List (List Nat) :=
  [[0xFF, 0xFF, 0xFF, 0xFF],
   [0xFF, 0xFF, 0xFF, 0xFF, 0xFF, 0xFF, 0xFF, 0xFF]]

/-- `ColumnAttributes` signature patterns. -/
def columnAttributesSigs : List (List Nat) :=
  [[0xFC, 0xFF, 0xFF, 0xFF],
   [0xFF, 0xFF, 0xFF, 0xFC],
   [0xFC, 0xFF, 0xFF, 0xFF, 0xFF, 0xFF, 0xFF, 0xFF],
   [0xFF, 0xFF, 0xFF, 0xFF, 0xFF, 0xFF, 0xFF, 0xFC]]

/-- `FormatAndLabel` signature patterns. -/
def formatAndLabelSigs : List (List Nat) :=
  [[0xFE, 0xFB, 0xFF, 0xFF],
   [0xFF, 0xFF, 0xFB, 0xFE],
   [0xFE, 0xFB, 0xFF, 0xFF, 0xFF, 0xFF, 0xFF, 0xFF],
   [0xFF, 0xFF, 0xFF, 0xFF, 0xFF, 0xFF, 0xFB, 0xFE]]

/-- `ColumnList` signature patterns. -/
def columnListSigs : List (List Nat) :=
  [[0xFE, 0xFF, 0xFF, 0xFF],
   [0xFF, 0xFF, 0xFF, 0xFE],
   [0xFE, 0xFF, 0xFF, 0xFF, 0xFF, 0xFF, 0xFF, 0xFF],
   [0xFF, 0xFF, 0xFF, 0xFF, 0xFF, 0xFF, 0xFF, 0xFE]]

/-- `Page::process_sub_header`: the signature is the first `word_len`
bytes of the payload (`&buf[..word_len]` panics when the payload is
shorter); match arms are tried in source order, an unmatched signature
is a fatal error. The `ptr` argument is captured but unused, as in the
source. -/
def processSubHeader (reader : ReaderSt) (page : Page) (buf : List Nat)
    (_ptr : SubHeaderPtr) : Outcome Page :=
  Outcome.bind (rslice buf 0 reader.word_len) fun signature =>
  if signature ∈ rowSizeSigs then processRowSize reader page buf
  else if signature ∈ columnSizeSigs then processColumnSize reader page buf
  else if signature ∈ countsSigs then .ok page
  else if signature ∈ columnTextSigs then processColumnText reader page buf
  else if signature ∈ columnNameSigs then .ok page
  else if signature ∈ columnAttributesSigs then .ok page
  else if signature ∈ formatAndLabelSigs then .ok page
  else if signature ∈ columnListSigs then .ok page
  else .err "Unrecognized sub header signature"

/-- The liveness guard of the sub-header loop:
`ptr.len > 0 && !ptr.compression.is_truncated()`. -/
def subHeaderGuard (ptr : SubHeaderPtr) : Bool :=
  decide (0 < ptr.len) && !ptr.compression.is_truncated

/-- Rust `slice::chunks(n)`: `⌈len/n⌉` consecutive chunks of `n` bytes,
the last one possibly shorter (callers must ensure `n > 0`). -/
def chunksList (n : Nat) (l : List Nat) : List (List Nat) :=
  (List.range ((l.length + n - 1) / n)).map fun i => (l.drop (i * n)).take n

/-- The `for ch in buf[start+8..].chunks(..).take(..)` loop body of
`Page::new`, instrumented so the outcome also records, in order, the
`SubHeaderPtr`s parsed from the visited chunks and the sub-list of those
that passed the liveness guard and were dispatched to
`process_sub_header`. -/
def subHeaderLoop (reader : ReaderSt) (buf : List Nat) :
    Page → List (List Nat) → Outcome (Page × List SubHeaderPtr × List SubHeaderPtr)
  | page, [] => .ok (page, [], [])
  | page, ch :: rest =>
    Outcome.bind (SubHeaderPtr.new reader ch) fun ptr =>
    if subHeaderGuard ptr then
      Outcome.bind (rslice buf ptr.offset (ptr.offset + ptr.len)) fun payload =>
      Outcome.bind (processSubHeader reader page payload ptr) fun page2 =>
      Outcome.bind (subHeaderLoop reader buf page2 rest) fun out =>
      .ok (out.1, ptr :: out.2.1, ptr :: out.2.2)
    else
      Outcome.bind (subHeaderLoop reader buf page rest) fun out =>
      .ok (out.1, ptr :: out.2.1, out.2.2)

/-- `Page::new`, instrumented with the parsed-pointer and
dispatched-pointer traces of the sub-header loop (both empty for `Data`
pages, whose branch is skipped). -/
def pageNew (reader : ReaderSt) (buf : List Nat) :
    Outcome (Page × List SubHeaderPtr × List SubHeaderPtr) :=
  let start := reader.page_start
  Outcome.bind (rslice buf start (start + 2)) fun s1 =>
  Outcome.bind (reader.byte_reader.read_u16 s1) fun ptCode =>
  Outcome.bind (PageType.from_u16 ptCode) fun page_type =>
  Outcome.bind (rslice buf (start + 2) (start + 4)) fun s2 =>
  Outcome.bind (reader.byte_reader.read_u16 s2) fun block_count =>
  let page := { Page.mkDefault with page_type := page_type, block_count := block_count }
  if page.page_type.has_sub_header then
    Outcome.bind (rslice buf (start + 4) (start + 6)) fun s3 =>
    Outcome.bind (reader.byte_reader.read_u16 s3) fun sub_header_count =>
    Outcome.bind (rsliceFrom buf (start + 8)) fun tail =>
    if reader.sub_header_len = 0 then .crash
    else subHeaderLoop reader buf page ((chunksList reader.sub_header_len tail).take sub_header_count)
  else .ok (page, [], [])

/-- The 32-byte magic constant checked at the start of `from_reader`. -/
def magicBytes : List Nat :=
  [0x00, 0x00, 0x00, 0x00, 0x00, 0x00, 0x00, 0x00,
   0x00, 0x00, 0x00, 0x00, 0xc2, 0xea, 0x81, 0x60,
   0xb3, 0x14, 0x11, 0xcf, 0xbd, 0x92, 0x08, 0x00,
   0x09, 0xc7, 0x31, 0x8c, 0x18, 0x1f, 0x10, 0x11]

/-- The ASCII bytes of `"SAS FILE"`, expected at `buf[84..92]`. -/
def sasFileBytes : List Nat := [0x53, 0x41, 0x53, 0x20, 0x46, 0x49, 0x4C, 0x45]

/-- The encoding codes `from_reader` accepts at byte 70 (any other code
is a fatal error; label resolution itself falls back to UTF-8). -/
def encodingCodes : List Nat := [29, 20, 33, 60, 61, 62, 90]

/-- `Reader::from_reader`, on the stream's byte list: returns the reader
state together with the unconsumed remainder of the stream. Mirrors the
source step by step: 1024-byte `read_exact`, magic check, the word-width
flag at byte 32 fixing `(word_len, page_start, sub_header_len)`, the
alignment flag at byte 35 fixing `a1`, the endianness flag at byte 37,
the `"SAS FILE"` check, the encoding-code table, the header-length gate
(consuming `8192 - 1024` further bytes in the 8192 case), and the
page-length / page-count reads. -/
def fromReader (input : List Nat) : Outcome (ReaderSt × List Nat) :=
  Outcome.bind (readExact 1024 input) fun br =>
  let buf := br.1
  if buf.take 32 = magicBytes then
    let word_len := if buf.getD 32 0 = 0x33 then 8 else 4
    let page_start := if buf.getD 32 0 = 0x33 then 32 else 16
    let sub_header_len := if buf.getD 32 0 = 0x33 then 24 else 12
    let a1 := if buf.getD 35 0 = 0x33 then 4 else 0
    let byte_reader : ByteReader := ⟨buf.getD 37 0 == 1, word_len == 8⟩
    if (buf.drop 84).take 8 = sasFileBytes then
      if buf.getD 70 0 ∈ encodingCodes then
        Outcome.bind (rslice buf (196 + a1) (200 + a1)) fun hs =>
        Outcome.bind (byte_reader.read_i32 hs) fun header_len =>
        let finish := fun (rest : List Nat) =>
          Outcome.bind (rslice buf (200 + a1) (204 + a1)) fun ps =>
          Outcome.bind (byte_reader.read_i32 ps) fun page_len =>
          Outcome.bind (rslice buf (204 + a1) (204 + a1 + word_len)) fun cs =>
          Outcome.bind (byte_reader.read_usize cs) fun page_count =>
          .ok ({ page_num := 0, byte_reader := byte_reader,
                 encoding_code := buf.getD 70 0,
                 page_len := i32_as_usize page_len, page_count := page_count,
                 word_len := word_len, page_start := page_start,
                 sub_header_len := sub_header_len }, rest)
        if header_len = 1024 then finish br.2
        else if header_len = 8192 then
          Outcome.bind (readExact (8192 - 1024) br.2) fun br2 => finish br2.2
        else .err ("Invalid header: " ++ toString header_len)
      else .err ("Unknown encoding " ++ toString (buf.getD 70 0))
    else .err "invalid SAS FILE"
  else .err "invalid Magic Number"

/-- `Reader::next_page`: returns the optional decoded page (with its
instrumentation traces) together with the updated reader state and the
remaining stream. -/
def nextPage (st : ReaderSt) (stream : List Nat) :
    Outcome (Option (Page × List SubHeaderPtr × List SubHeaderPtr) × ReaderSt × List Nat) :=
  if st.page_num = st.page_count then .ok (none, st, stream)
  else
    Outcome.bind (readExact st.page_len stream) fun br =>
    Outcome.bind (pageNew st br.1) fun pg =>
    .ok (some pg, { st with page_num := st.page_num + 1 }, br.2)

/-- Observation: the alignment offset `a1` derived from byte 35 of the
input, as `from_reader` computes it. -/
def a1Of (input : List Nat) : Nat := if input.getD 35 0 = 0x33 then 4 else 0

/-- Observation: the signed 32-bit header-length field of the input, at
offset `196 + a1` in the byte order selected by byte 37. -/
def headerLenField (input : List Nat) : Int :=
  toSigned 4 (wordVal (input.getD 37 0 == 1) 4 (input.drop (196 + a1Of input)))

/-- Observation: the 16-bit sub-header count of a page buffer, at
`page_start + 4` in the reader's byte order. -/
def subHeaderCountOf (reader : ReaderSt) (buf : List Nat) : Nat :=
  wordVal reader.byte_reader.isLittleEndian 2 (buf.drop (reader.page_start + 4))

/-- Observation: the chunk decomposition of the pointer-table region
`buf[page_start + 8..]` into `sub_header_len`-byte slots. -/
def slotTable (reader : ReaderSt) (buf : List Nat) : List (List Nat) :=
  chunksList reader.sub_header_len (buf.drop (reader.page_start + 8))

/-- Observation: parse each pointer slot in order with `SubHeaderPtr::new`,
yielding the pointer list when every slot parses. -/
def parsePtrs (reader : ReaderSt) : List (List Nat) → Option (List SubHeaderPtr)
  | [] => some []
  | ch :: rest =>
    match (SubHeaderPtr.new reader ch).toOption with
    | none => none
    | some ptr =>
      match parsePtrs reader rest with
      | none => none
      | some tl => some (ptr :: tl)

/-- A concrete 1024-byte header: word-width flag byte 32 is `0x22` (so
32-bit words), alignment flag byte 35 is `0x33` (so `a1 = 4`),
little-endian, encoding code 20, `header_len = 1024`, `page_len = 24`,
`page_count = 1`. -/
def hdrA1 : List Nat :=
  magicBytes ++ [0x22, 0, 0, 0x33, 0, 1] ++ List.replicate 32 0 ++ [20]
    ++ List.replicate 13 0 ++ sasFileBytes ++ List.replicate 108 0
    ++ [0, 4, 0, 0] ++ [24, 0, 0, 0] ++ [1, 0, 0, 0] ++ List.replicate 812 0

/-- Like `hdrA1` but with header-length field 512 (bytes `[0, 2, 0, 0]`). -/
def hdrBad : List Nat :=
  magicBytes ++ [0x22, 0, 0, 0x33, 0, 1] ++ List.replicate 32 0 ++ [20]
    ++ List.replicate 13 0 ++ sasFileBytes ++ List.replicate 108 0
    ++ [0, 2, 0, 0] ++ [24, 0, 0, 0] ++ [1, 0, 0, 0] ++ List.replicate 812 0

/-- The reader state `from_reader` produces on `hdrA1`. -/
def stA : ReaderSt :=
  { page_num := 0, byte_reader := ⟨true, false⟩, encoding_code := 20,
    page_len := 24, page_count := 1, word_len := 4, page_start := 16,
    sub_header_len := 12 }

/-- A default page marked `Meta` with `block_count` 0. -/
def pgMeta : Page := { Page.mkDefault with page_type := .Meta }

/-- A 24-byte `Meta` page buffer whose sub-header count field says 5 but
whose pointer-table region `buf[24..]` is empty. -/
def bufC3 : List Nat := List.replicate 16 0 ++ [0, 0, 0, 0, 5, 0, 0, 0]

/-- A 48-byte `Meta` page buffer with two pointer slots, both failing the
liveness guard: slot one has length 0, slot two has length 5 but
compression code 1 (`Truncated`). -/
def bufC6 : List Nat :=
  List.replicate 16 0 ++ [0, 0, 0, 0, 2, 0, 0, 0]
    ++ [0, 0, 0, 0, 0, 0, 0, 0, 0, 0, 0, 0]
    ++ [0, 0, 0, 0, 5, 0, 0, 0, 1, 0, 0, 0]

/-- The two pointers parsed from `bufC6`. -/
def ptrC6a : SubHeaderPtr := ⟨0, 0, .Uncompressed, 0⟩

def ptrC6b : SubHeaderPtr := ⟨0, 5, .Truncated, 0⟩

/-- A 48-byte `Meta` page buffer with one live pointer whose
`offset + len = 40 + 20 = 60` exceeds the buffer length 48. -/
def bufC10 : List Nat :=
  List.replicate 16 0 ++ [0, 0, 0, 0, 1, 0, 0, 0]
    ++ [40, 0, 0, 0, 20, 0, 0, 0, 0, 0, 0, 0]
    ++ List.replicate 12 0

/-- The live out-of-bounds pointer of `bufC10`. -/
def ptrC10 : SubHeaderPtr := ⟨40, 20, .Uncompressed, 0⟩

/-- Observation: the native-width column count read at offset
`1 * word_len` of a ColumnSize payload. -/
def colCountRead (reader : ReaderSt) (buf : List Nat) : Nat :=
  wordVal reader.byte_reader.isLittleEndian reader.byte_reader.wordWidth
    (buf.drop (1 * reader.word_len))

/-- A 20-byte `Data` page buffer: page-type code 256 at offset 16. -/
def bufData : List Nat := List.replicate 16 0 ++ [0, 1, 0, 0]

/-- An all-zero 480-byte sub-header payload. -/
def buf480 : List Nat := List.replicate 480 0

/-- A 480-byte ColumnSize-sized payload declaring 6 columns at offset 4. -/
def bufCS : List Nat := [0, 0, 0, 0, 6, 0, 0, 0] ++ List.replicate 472 0

/-- A page record whose RowSize partial column counts sum to 5. -/
def pgRow : Page := { Page.mkDefault with col_count_p1 := 2, col_count_p2 := 3 }

theorem Outcome.bind_eq_ok {α β : Type} {x : Outcome α} {f : α → Outcome β} {b : β}
    (h : Outcome.bind x f = .ok b) : ∃ a, x = .ok a ∧ f a = .ok b := by
  cases x with
  | ok a => exact ⟨a, rfl, h⟩
  | err m => simp [Outcome.bind] at h
  | crash => simp [Outcome.bind] at h

theorem processRowSize_page_type {reader : ReaderSt} {page : Page} {buf : List Nat}
    {pg : Page} (h : processRowSize reader page buf = .ok pg) :
    pg.page_type = page.page_type := by
  unfold processRowSize at h
  obtain ⟨_, _, h⟩ := Outcome.bind_eq_ok h
  obtain ⟨_, _, h⟩ := Outcome.bind_eq_ok h
  obtain ⟨_, _, h⟩ := Outcome.bind_eq_ok h
  obtain ⟨_, _, h⟩ := Outcome.bind_eq_ok h
  obtain ⟨_, _, h⟩ := Outcome.bind_eq_ok h
  obtain ⟨_, _, h⟩ := Outcome.bind_eq_ok h
  obtain ⟨_, _, h⟩ := Outcome.bind_eq_ok h
  obtain ⟨_, _, h⟩ := Outcome.bind_eq_ok h
  obtain rfl := Outcome.ok.inj h
  rfl

theorem processColumnSize_page_type {reader : ReaderSt} {page : Page} {buf : List Nat}
    {pg : Page} (h : processColumnSize reader page buf = .ok pg) :
    pg.page_type = page.page_type := by
  unfold processColumnSize at h
  obtain ⟨_, _, h⟩ := Outcome.bind_eq_ok h
  obtain ⟨_, _, h⟩ := Outcome.bind_eq_ok h
  obtain rfl := Outcome.ok.inj h
  rfl

theorem processColumnText_page_type {reader : ReaderSt} {page : Page} {buf : List Nat}
    {pg : Page} (h : processColumnText reader page buf = .ok pg) :
    pg.page_type = page.page_type := by
  unfold processColumnText at h
  obtain ⟨_, _, h⟩ := Outcome.bind_eq_ok h
  obtain ⟨_, _, h⟩ := Outcome.bind_eq_ok h
  obtain ⟨_, _, h⟩ := Outcome.bind_eq_ok h
  obtain rfl := Outcome.ok.inj h
  rfl

theorem processSubHeader_page_type {reader : ReaderSt} {page : Page} {buf : List Nat}
    {ptr : SubHeaderPtr} {pg : Page} (h : processSubHeader reader page buf ptr = .ok pg) :
    pg.page_type = page.page_type := by
  unfold processSubHeader at h
  obtain ⟨sig, hsig, h⟩ := Outcome.bind_eq_ok h
  split at h
  · exact processRowSize_page_type h
  split at h
  · exact processColumnSize_page_type h
  split at h
  · obtain rfl := Outcome.ok.inj h
    rfl
  split at h
  · exact processColumnText_page_type h
  split at h
  · obtain rfl := Outcome.ok.inj h
    rfl
  split at h
  · obtain rfl := Outcome.ok.inj h
    rfl
  split at h
  · obtain rfl := Outcome.ok.inj h
    rfl
  split at h
  · obtain rfl := Outcome.ok.inj h
    rfl
  · exact absurd h (by simp)

theorem PageType.has_sub_header_eq_false (pt : PageType) :
    pt.has_sub_header = false ↔ pt = .Data := by
  cases pt <;> simp [PageType.has_sub_header]

theorem subHeaderLoop_spec {reader : ReaderSt} {buf : List Nat} {chs : List (List Nat)}
    {page pg : Page} {tr d : List SubHeaderPtr}
    (h : subHeaderLoop reader buf page chs = .ok (pg, tr, d)) :
    pg.page_type = page.page_type ∧ tr.length = chs.length ∧
    parsePtrs reader chs = some tr ∧
    d = tr.filter subHeaderGuard := by
  induction chs generalizing page pg tr d with
  | nil =>
    rw [subHeaderLoop] at h
    simp only [Outcome.ok.injEq, Prod.mk.injEq] at h
    obtain ⟨rfl, rfl, rfl⟩ := h
    exact ⟨rfl, rfl, rfl, by simp⟩
  | cons ch rest ih =>
    rw [subHeaderLoop] at h
    obtain ⟨ptr, hn, h⟩ := Outcome.bind_eq_ok h
    by_cases hg : subHeaderGuard ptr = true
    · rw [if_pos hg] at h
      obtain ⟨payload, hp, h⟩ := Outcome.bind_eq_ok h
      obtain ⟨page2, hps, h⟩ := Outcome.bind_eq_ok h
      obtain ⟨out, hloop, h⟩ := Outcome.bind_eq_ok h
      obtain ⟨pg0, tr0, d0⟩ := out
      simp only [Outcome.ok.injEq, Prod.mk.injEq] at h
      obtain ⟨rfl, rfl, rfl⟩ := h
      obtain ⟨ha, hb, hc, hd⟩ := ih hloop
      refine ⟨ha.trans (processSubHeader_page_type hps), by simp [hb], ?_, ?_⟩
      · simp [parsePtrs, hn, Outcome.toOption, hc]
      · simp [List.filter_cons, hg, hd]
    · rw [if_neg hg] at h
      obtain ⟨out, hloop, h⟩ := Outcome.bind_eq_ok h
      obtain ⟨pg0, tr0, d0⟩ := out
      simp only [Outcome.ok.injEq, Prod.mk.injEq] at h
      obtain ⟨rfl, rfl, rfl⟩ := h
      obtain ⟨ha, hb, hc, hd⟩ := ih hloop
      refine ⟨ha, by simp [hb], ?_, ?_⟩
      · simp [parsePtrs, hn, Outcome.toOption, hc]
      · simp [List.filter_cons, hg, hd]

theorem pageNew_inv {reader : ReaderSt} {buf : List Nat} {pg : Page}
    {tr d : List SubHeaderPtr} (h : pageNew reader buf = .ok (pg, tr, d)) :
    (pg.page_type.has_sub_header = false ∧ tr = [] ∧ d = []) ∨
    (pg.page_type.has_sub_header = true ∧
      ∃ page0 : Page,
        subHeaderLoop reader buf page0
          ((slotTable reader buf).take (subHeaderCountOf reader buf)) = .ok (pg, tr, d)) := by
  unfold pageNew at h
  obtain ⟨s1, hs1, h⟩ := Outcome.bind_eq_ok h
  obtain ⟨tc, htc, h⟩ := Outcome.bind_eq_ok h
  obtain ⟨pt, hpt, h⟩ := Outcome.bind_eq_ok h
  obtain ⟨s2, hs2, h⟩ := Outcome.bind_eq_ok h
  obtain ⟨bc, hbc, h⟩ := Outcome.bind_eq_ok h
  dsimp only at h
  split at h
  · rename_i hh
    obtain ⟨s3, hs3, h⟩ := Outcome.bind_eq_ok h
    obtain ⟨cnt, hcnt, h⟩ := Outcome.bind_eq_ok h
    obtain ⟨tail, htail, h⟩ := Outcome.bind_eq_ok h
    split at h
    · exact absurd h (by simp)
    · have hs3v : s3 = (buf.drop (reader.page_start + 4)).take 2 := by
        unfold rslice at hs3
        split at hs3
        · have := (Outcome.ok.inj hs3).symm
          simpa using this
        · exact absurd hs3 (by simp)
      have hcv : cnt = subHeaderCountOf reader buf := by
        unfold ByteReader.read_u16 ByteReader.readUnsignedW at hcnt
        split at hcnt
        · have := (Outcome.ok.inj hcnt).symm
          rw [this, hs3v, subHeaderCountOf]
          unfold wordVal
          simp [List.take_take]
        · exact absurd hcnt (by simp)
      have htv : tail = buf.drop (reader.page_start + 8) := by
        unfold rsliceFrom at htail
        split at htail
        · exact (Outcome.ok.inj htail).symm
        · exact absurd htail (by simp)
      right
      have hloop := h
      obtain ⟨hptype, -, -, -⟩ := subHeaderLoop_spec hloop
      refine ⟨?_, ⟨{ Page.mkDefault with page_type := pt, block_count := bc }, ?_⟩⟩
      · rw [hptype]
        exact hh
      · rw [slotTable, ← htv, ← hcv]
        exact hloop
  · rename_i hh
    simp only [Outcome.ok.injEq, Prod.mk.injEq] at h
    obtain ⟨rfl, rfl, rfl⟩ := h
    left
    simp only [Bool.not_eq_true] at hh
    exact ⟨hh, rfl, rfl⟩

theorem wordVal_take (le : Bool) (w w2 : Nat) (l : List Nat) (h : w ≤ w2) :
    wordVal le w (l.take w2) = wordVal le w l := by
  unfold wordVal
  rw [List.take_take, min_eq_left h]

theorem getD_take_eq (l : List Nat) (n i : Nat) (h : i < n) :
    (l.take n).getD i 0 = l.getD i 0 := by
  rw [List.getD_eq_getElem?_getD, List.getD_eq_getElem?_getD, List.getElem?_take_of_lt h]

theorem drop_take_slice (l : List Nat) (k w n : Nat) (h : k + w ≤ n) :
    ((l.take n).drop k).take w = (l.drop k).take w := by
  rw [List.drop_take, List.take_take, min_eq_left (by omega)]

theorem readUnsignedW_spec (r : ByteReader) (w : Nat) (buf : List Nat) :
    (buf.length < w → r.readUnsignedW w buf = .crash) ∧
    (w ≤ buf.length → r.readUnsignedW w buf = .ok (wordVal r.isLittleEndian w buf)) := by
  unfold ByteReader.readUnsignedW
  constructor <;> intro h
  · rw [if_neg (by omega)]
  · rw [if_pos h]

theorem fromReader_inv {input : List Nat} {st : ReaderSt} {rest : List Nat}
    (h : fromReader input = .ok (st, rest)) :
    1024 ≤ input.length ∧
    st.page_num = 0 ∧
    st.word_len = (if input.getD 32 0 = 0x33 then 8 else 4) ∧
    st.page_start = (if input.getD 32 0 = 0x33 then 32 else 16) ∧
    st.sub_header_len = (if input.getD 32 0 = 0x33 then 24 else 12) ∧
    ((headerLenField input = 1024 ∧ rest = input.drop 1024) ∨
     (headerLenField input = 8192 ∧ rest = input.drop 8192 ∧ 8192 ≤ input.length)) := by
  unfold fromReader at h
  obtain ⟨br, hre, h⟩ := Outcome.bind_eq_ok h
  unfold readExact at hre
  split at hre
  case isFalse => exact absurd hre (by simp)
  rename_i hlen
  obtain rfl := (Outcome.ok.inj hre).symm
  dsimp only at h
  split at h
  case isFalse => exact absurd h (by simp)
  split at h
  case isFalse => exact absurd h (by simp)
  split at h
  case isFalse => exact absurd h (by simp)
  have h32 : (List.take 1024 input).getD 32 0 = input.getD 32 0 := getD_take_eq _ _ _ (by omega)
  have h35 : (List.take 1024 input).getD 35 0 = input.getD 35 0 := getD_take_eq _ _ _ (by omega)
  have h37 : (List.take 1024 input).getD 37 0 = input.getD 37 0 := getD_take_eq _ _ _ (by omega)
  have h70 : (List.take 1024 input).getD 70 0 = input.getD 70 0 := getD_take_eq _ _ _ (by omega)
  rw [h32, h35, h37, h70] at h
  set a1 := if input.getD 35 0 = 51 then 4 else 0 with ha1
  have ha1le : a1 ≤ 4 := by rw [ha1]; split <;> omega
  have hbl : (List.take 1024 input).length = 1024 := by rw [List.length_take]; omega
  have harith : 200 + a1 - (196 + a1) = 4 := by omega
  have hlen4 : 4 ≤ ((input.drop (196 + a1)).take 4).length := by
    rw [List.length_take, List.length_drop]
    omega
  have hrs : rslice (List.take 1024 input) (196 + a1) (200 + a1)
      = .ok ((input.drop (196 + a1)).take 4) := by
    unfold rslice
    rw [if_pos ⟨by omega, by rw [hbl]; omega⟩, harith,
      drop_take_slice input (196 + a1) 4 1024 (by omega)]
  have hri : ByteReader.read_i32
      ⟨(input.getD 37 0 == 1), ((if input.getD 32 0 = 51 then 8 else 4) == 8)⟩
      ((input.drop (196 + a1)).take 4) = .ok (headerLenField input) := by
    unfold ByteReader.read_i32
    rw [(readUnsignedW_spec _ 4 _).2 hlen4]
    rw [wordVal_take _ _ _ _ (le_refl 4)]
    rw [headerLenField, a1Of, ← ha1]
  simp only [hrs, hri, Outcome.bind] at h
  refine ⟨hlen, ?_⟩
  by_cases hc1 : headerLenField input = 1024
  · rw [if_pos hc1] at h
    obtain ⟨ps, hps, h⟩ := Outcome.bind_eq_ok h
    obtain ⟨pl, hpl, h⟩ := Outcome.bind_eq_ok h
    obtain ⟨cs, hcs, h⟩ := Outcome.bind_eq_ok h
    obtain ⟨pc, hpc, h⟩ := Outcome.bind_eq_ok h
    simp only [Outcome.ok.injEq, Prod.mk.injEq] at h
    obtain ⟨hst, hrest⟩ := h
    subst hst
    subst hrest
    exact ⟨rfl, rfl, rfl, rfl, Or.inl ⟨hc1, rfl⟩⟩
  · rw [if_neg hc1] at h
    by_cases hc2 : headerLenField input = 8192
    · rw [if_pos hc2] at h
      obtain ⟨br2, hre2, h⟩ := Outcome.bind_eq_ok h
      unfold readExact at hre2
      split at hre2
      rotate_left
      · exact absurd hre2 (by simp)
      rename_i hlen2
      obtain rfl := Outcome.ok.inj hre2
      obtain ⟨ps, hps, h⟩ := Outcome.bind_eq_ok h
      obtain ⟨pl, hpl, h⟩ := Outcome.bind_eq_ok h
      obtain ⟨cs, hcs, h⟩ := Outcome.bind_eq_ok h
      obtain ⟨pc, hpc, h⟩ := Outcome.bind_eq_ok h
      simp only [Outcome.ok.injEq, Prod.mk.injEq] at h
      obtain ⟨hst, hrest⟩ := h
      subst hst
      rw [List.length_drop] at hlen2
      refine ⟨rfl, rfl, rfl, rfl, Or.inr ⟨hc2, ?_, by omega⟩⟩
      rw [← hrest, List.drop_drop]
    · rw [if_neg hc2] at h
      exact absurd h (by simp)

theorem Outcome.ok_bind {α β : Type} (a : α) (f : α → Outcome β) :
    Outcome.bind (.ok a) f = f a := rfl

theorem ByteReader.wordWidth_le (r : ByteReader) : r.wordWidth ≤ 8 := by
  unfold ByteReader.wordWidth
  split <;> omega

theorem readUsizeAt_ok (reader : ReaderSt) (buf : List Nat) (off : Nat)
    (h : off + 8 ≤ buf.length) :
    readUsizeAt reader buf off =
      .ok (wordVal reader.byte_reader.isLittleEndian reader.byte_reader.wordWidth
        (buf.drop off)) := by
  unfold readUsizeAt rsliceFrom
  rw [if_pos (by omega), Outcome.ok_bind]
  unfold ByteReader.read_usize
  refine (readUnsignedW_spec _ _ _).2 ?_
  rw [List.length_drop]
  have := reader.byte_reader.wordWidth_le
  omega

/-- Claim C1 (amended): for every successfully decoded header the
page-start offset used by the page decoder is determined by the
word-width flag at byte 32 of the preamble — 32 when that byte is `0x33`
(8-byte words) and 16 otherwise — not by the alignment flag at byte 35:
`page_start = 32 ↔ word_len = 8`. -/
theorem c1_page_start_from_word_flag (input : List Nat) (st : ReaderSt) (rest : List Nat)
    (h : fromReader input = .ok (st, rest)) :
    st.page_start = (if input.getD 32 0 = 0x33 then 32 else 16) ∧
    st.word_len = (if input.getD 32 0 = 0x33 then 8 else 4) ∧
    (st.page_start = 32 ↔ st.word_len = 8) ∧ (st.page_start = 16 ↔ st.word_len = 4) := by
  obtain ⟨-, -, hw, hp, -, -⟩ := fromReader_inv h
  refine ⟨hp, hw, ?_, ?_⟩ <;> rw [hw, hp] <;>
    by_cases hb : input.getD 32 0 = 0x33 <;> simp [hb]

set_option maxRecDepth 10000 in
/-- Claim C1 counterexample: on the concrete header `hdrA1` the alignment
flag at byte 35 yields `alignment_offset = 4`, yet the page-start offset
is 16, not `16 + 4*4 = 32`; `page_start` follows byte 32 (word width),
not byte 35. -/
theorem c1_counterexample :
    fromReader hdrA1 = .ok (stA, []) ∧ a1Of hdrA1 = 4 ∧
    stA.page_start = 16 ∧ stA.page_start ≠ 16 + a1Of hdrA1 * 4 := by
  refine ⟨by decide, by decide, by decide, by decide⟩

set_option maxRecDepth 10000 in
theorem c1_witness :
    stA.page_start = (if hdrA1.getD 32 0 = 0x33 then 32 else 16) :=
  (c1_page_start_from_word_flag hdrA1 stA [] (by decide)).1

/-- Claim C2 (amended): for every byte order and word width, each read of
the word reader applied to a byte slice shorter than the required width
aborts (the `byteorder` primitives panic; no `Truncated` error value
exists in the error type or is produced); on slices of sufficient length
the reads are total (and side-effect free, being pure functions of the
slice). -/
theorem c2_short_reads_crash (r : ByteReader) (buf : List Nat) :
    (buf.length < 4 → r.read_i32 buf = .crash) ∧
    (4 ≤ buf.length → ∃ v, r.read_i32 buf = .ok v) ∧
    (buf.length < 2 → r.read_u16 buf = .crash) ∧
    (2 ≤ buf.length → ∃ v, r.read_u16 buf = .ok v) ∧
    (buf.length < 8 → r.read_i64 buf = .crash) ∧
    (8 ≤ buf.length → ∃ v, r.read_i64 buf = .ok v) ∧
    (buf.length < r.wordWidth → r.read_usize buf = .crash ∧ r.read_isize buf = .crash) ∧
    (r.wordWidth ≤ buf.length →
      (∃ v, r.read_usize buf = .ok v) ∧ (∃ v, r.read_isize buf = .ok v)) := by
  refine ⟨?_, ?_, ?_, ?_, ?_, ?_, ?_, ?_⟩
  · intro h
    unfold ByteReader.read_i32
    rw [(readUnsignedW_spec r 4 buf).1 h]
  · intro h
    unfold ByteReader.read_i32
    rw [(readUnsignedW_spec r 4 buf).2 h]
    exact ⟨_, rfl⟩
  · intro h
    unfold ByteReader.read_u16
    exact (readUnsignedW_spec r 2 buf).1 h
  · intro h
    unfold ByteReader.read_u16
    exact ⟨_, (readUnsignedW_spec r 2 buf).2 h⟩
  · intro h
    unfold ByteReader.read_i64
    rw [(readUnsignedW_spec r 8 buf).1 h]
  · intro h
    unfold ByteReader.read_i64
    rw [(readUnsignedW_spec r 8 buf).2 h]
    exact ⟨_, rfl⟩
  · intro h
    unfold ByteReader.read_usize ByteReader.read_isize
    rw [(readUnsignedW_spec r r.wordWidth buf).1 h]
    exact ⟨rfl, rfl⟩
  · intro h
    unfold ByteReader.read_usize ByteReader.read_isize
    rw [(readUnsignedW_spec r r.wordWidth buf).2 h]
    exact ⟨⟨_, rfl⟩, ⟨_, rfl⟩⟩

/-- Claim C2 counterexample: a 64-bit little-endian reader applied to the
2-byte slice `[0, 1]` aborts (`Outcome.crash`, modelling the `byteorder`
panic); it does not return an error value of any kind. -/
theorem c2_counterexample :
    ByteReader.read_i32 ⟨true, true⟩ [0, 1] = Outcome.crash ∧
    (ByteReader.read_i32 ⟨true, true⟩ [0, 1]).isErr = false := by
  exact ⟨by decide, by decide⟩

theorem c2_witness :
    ByteReader.read_u16 ⟨true, false⟩ [7] = Outcome.crash ∧
    (∃ v, ByteReader.read_i32 ⟨false, true⟩ [0, 0, 1, 0] = Outcome.ok v) ∧
    ByteReader.read_usize ⟨true, true⟩ [1, 2, 3, 4] = Outcome.crash :=
  ⟨(c2_short_reads_crash ⟨true, false⟩ [7]).2.2.1 (by decide),
   (c2_short_reads_crash ⟨false, true⟩ [0, 0, 1, 0]).2.1 (by decide),
   ((c2_short_reads_crash ⟨true, true⟩ [1, 2, 3, 4]).2.2.2.2.2.2.1 (by decide)).1⟩

/-- Claim C3 (amended): for every decoded header the slot width is 24
bytes for 8-byte words and 12 for 4-byte words, and for every non-Data
page the pointer table starting at `page_start + 8` is parsed in order;
however the number of slots consumed is `min sub_header_count
(chunk count of buffer[page_start+8..])`, not always exactly
`sub_header_count`: a buffer whose tail holds fewer chunks yields fewer
pointers without error. -/
theorem c3_slot_iteration :
    (∀ (input : List Nat) (st : ReaderSt) (rest : List Nat),
      fromReader input = .ok (st, rest) →
      st.sub_header_len = (if st.word_len = 8 then 24 else 12)) ∧
    (∀ (reader : ReaderSt) (buf : List Nat) (pg : Page) (tr d : List SubHeaderPtr),
      pageNew reader buf = .ok (pg, tr, d) → pg.page_type ≠ .Data →
      parsePtrs reader ((slotTable reader buf).take (subHeaderCountOf reader buf)) = some tr ∧
      tr.length = min (subHeaderCountOf reader buf) (slotTable reader buf).length) := by
  constructor
  · intro input st rest h
    obtain ⟨-, -, hw, -, hs, -⟩ := fromReader_inv h
    rw [hw, hs]
    by_cases hb : input.getD 32 0 = 0x33 <;> simp [hb]
  · intro reader buf pg tr d h hnd
    rcases pageNew_inv h with ⟨hf, htr, hd⟩ | ⟨ht, page0, hloop⟩
    · exact absurd ((PageType.has_sub_header_eq_false _).mp hf) hnd
    · obtain ⟨-, hlen, hparse, -⟩ := subHeaderLoop_spec hloop
      refine ⟨hparse, ?_⟩
      rw [hlen, List.length_take]

/-- Claim C3 counterexample: `bufC3` is a 24-byte Meta page whose
sub-header count field reads 5, yet zero pointer slots are parsed (the
table region `buf[24..]` is empty) and decoding succeeds. -/
theorem c3_counterexample :
    pageNew stA bufC3 = .ok (pgMeta, [], []) ∧
    subHeaderCountOf stA bufC3 = 5 ∧
    ([] : List SubHeaderPtr).length ≠ subHeaderCountOf stA bufC3 :=
  ⟨by decide, by decide, by decide⟩

set_option maxRecDepth 10000 in
theorem c3_witness :
    stA.sub_header_len = (if stA.word_len = 8 then 24 else 12) ∧
    parsePtrs stA ((slotTable stA bufC6).take (subHeaderCountOf stA bufC6))
      = some [ptrC6a, ptrC6b] :=
  ⟨c3_slot_iteration.1 hdrA1 stA [] (by decide),
   (c3_slot_iteration.2 stA bufC6 pgMeta [ptrC6a, ptrC6b] [] (by decide) (by decide)).1⟩

/-- Claim C4: header construction succeeds only when the 32-bit field at
offset `196 + alignment_offset` is exactly 1024 or 8192; with 1024
exactly 1024 bytes are consumed before the first page, with 8192 exactly
7168 additional bytes (8192 total) are consumed; any other field value
(once the earlier preamble checks pass) is a fatal invalid-header
error. -/
theorem c4_header_len_gate (input : List Nat) :
    (∀ (st : ReaderSt) (rest : List Nat), fromReader input = .ok (st, rest) →
      (headerLenField input = 1024 ∨ headerLenField input = 8192) ∧
      (headerLenField input = 1024 → input.length - rest.length = 1024) ∧
      (headerLenField input = 8192 → input.length - rest.length = 8192)) ∧
    (1024 ≤ input.length → input.take 32 = magicBytes →
      (input.drop 84).take 8 = sasFileBytes → input.getD 70 0 ∈ encodingCodes →
      headerLenField input ≠ 1024 → headerLenField input ≠ 8192 →
      fromReader input = .err ("Invalid header: " ++ toString (headerLenField input))) := by
  constructor
  · intro st rest h
    obtain ⟨hlen, -, -, -, -, hgate⟩ := fromReader_inv h
    rcases hgate with ⟨h1024, hrest⟩ | ⟨h8192, hrest, hlen2⟩
    · refine ⟨Or.inl h1024, fun _ => ?_, fun h2 => ?_⟩
      · rw [hrest, List.length_drop]
        omega
      · rw [h1024] at h2
        omega
    · refine ⟨Or.inr h8192, fun h2 => ?_, fun _ => ?_⟩
      · rw [h8192] at h2
        omega
      · rw [hrest, List.length_drop]
        omega
  · intro hlen hmagic hsas henc hne1 hne2
    have h32 := getD_take_eq input 1024 32 (by omega)
    have h35 := getD_take_eq input 1024 35 (by omega)
    have h37 := getD_take_eq input 1024 37 (by omega)
    have h70 := getD_take_eq input 1024 70 (by omega)
    have hmagic2 : (List.take 1024 input).take 32 = magicBytes := by
      rw [List.take_take]
      exact (by norm_num : (32 : Nat) ⊓ 1024 = 32) ▸ hmagic
    have hsas2 : ((List.take 1024 input).drop 84).take 8 = sasFileBytes := by
      rw [drop_take_slice input 84 8 1024 (by omega)]
      exact hsas
    unfold fromReader
    rw [show readExact 1024 input = .ok (input.take 1024, input.drop 1024) from by
      unfold readExact
      rw [if_pos hlen]]
    rw [Outcome.ok_bind]
    dsimp only
    rw [if_pos hmagic2, if_pos hsas2, h70]
    rw [if_pos henc]
    rw [h32, h35, h37]
    set a1 := if input.getD 35 0 = 51 then 4 else 0 with ha1
    have ha1le : a1 ≤ 4 := by rw [ha1]; split <;> omega
    have hbl : (List.take 1024 input).length = 1024 := by rw [List.length_take]; omega
    have harith : 200 + a1 - (196 + a1) = 4 := by omega
    have hlen4 : 4 ≤ ((input.drop (196 + a1)).take 4).length := by
      rw [List.length_take, List.length_drop]
      omega
    have hrs : rslice (List.take 1024 input) (196 + a1) (200 + a1)
        = .ok ((input.drop (196 + a1)).take 4) := by
      unfold rslice
      rw [if_pos ⟨by omega, by rw [hbl]; omega⟩, harith,
        drop_take_slice input (196 + a1) 4 1024 (by omega)]
    have hri : ByteReader.read_i32
        ⟨(input.getD 37 0 == 1), ((if input.getD 32 0 = 51 then 8 else 4) == 8)⟩
        ((input.drop (196 + a1)).take 4) = .ok (headerLenField input) := by
      unfold ByteReader.read_i32
      rw [(readUnsignedW_spec _ 4 _).2 hlen4]
      rw [wordVal_take _ _ _ _ (le_refl 4)]
      rw [headerLenField, a1Of, ← ha1]
    rw [hrs, Outcome.ok_bind, hri, Outcome.ok_bind]
    rw [if_neg hne1, if_neg hne2]

set_option maxRecDepth 10000 in
theorem c4_witness :
    (headerLenField hdrA1 = 1024 ∨ headerLenField hdrA1 = 8192) ∧
    hdrA1.length - ([] : List Nat).length = 1024 ∧
    fromReader hdrBad = .err ("Invalid header: " ++ toString (headerLenField hdrBad)) := by
  have h := (c4_header_len_gate hdrA1).1 stA [] (by decide)
  refine ⟨h.1, h.2.1 (by decide), ?_⟩
  exact (c4_header_len_gate hdrBad).2 (by decide) (by decide) (by decide) (by decide)
    (by decide) (by decide)

/-- Claim C5: page-type classification maps 0 to Meta, 1024 to Amd, 512
and 640 to Mix, 256 to Data and fails with an invalid-page-type error on
every other u16 value; only Data pages lack a sub-header table
(`has_sub_header` is false exactly for Data), and a successfully decoded
Data page parses and dispatches no sub-header pointers. -/
theorem c5_page_type_classification (n : Nat) :
    PageType.from_u16 0 = .ok .Meta ∧
    PageType.from_u16 1024 = .ok .Amd ∧
    PageType.from_u16 512 = .ok .Mix ∧
    PageType.from_u16 640 = .ok .Mix ∧
    PageType.from_u16 256 = .ok .Data ∧
    (n < 65536 → n ≠ 0 → n ≠ 1024 → n ≠ 512 → n ≠ 640 → n ≠ 256 →
      PageType.from_u16 n = .err ("Invalid page type " ++ toString n)) ∧
    (∀ pt : PageType, pt.has_sub_header = false ↔ pt = .Data) ∧
    (∀ (reader : ReaderSt) (buf : List Nat) (pg : Page) (tr d : List SubHeaderPtr),
      pageNew reader buf = .ok (pg, tr, d) → pg.page_type = .Data → tr = [] ∧ d = []) := by
  refine ⟨by decide, by decide, by decide, by decide, by decide, ?_, ?_, ?_⟩
  · intro _ h0 h1024 h512 h640 h256
    unfold PageType.from_u16
    rw [if_neg h0, if_neg h1024, if_neg (by tauto), if_neg h256]
  · exact PageType.has_sub_header_eq_false
  · intro reader buf pg tr d h hdata
    rcases pageNew_inv h with ⟨-, htr, hd⟩ | ⟨ht, -, -⟩
    · exact ⟨htr, hd⟩
    · rw [hdata] at ht
      exact absurd ht (by decide)

theorem c5_witness :
    PageType.from_u16 3 = .err ("Invalid page type " ++ toString 3) ∧
    pageNew stA bufData = .ok (Page.mkDefault, [], []) ∧
    ([] : List SubHeaderPtr) = [] ∧ ([] : List SubHeaderPtr) = [] := by
  have h := (c5_page_type_classification 3).2.2.2.2.2.2.2 stA bufData Page.mkDefault [] []
    (by decide) (by decide)
  exact ⟨(c5_page_type_classification 3).2.2.2.2.2.1 (by decide) (by decide) (by decide)
    (by decide) (by decide) (by decide), by decide, h.1, h.2⟩

/-- Claim C6: in every successfully decoded page, a parsed sub-header
pointer is dispatched if and only if its length is positive and its
compression is not Truncated: the dispatched list is exactly the filter
of the parsed list through that guard, so a pointer failing the guard is
skipped without dispatch and without error. -/
theorem c6_dispatch_guard (reader : ReaderSt) (buf : List Nat) (pg : Page)
    (tr d : List SubHeaderPtr) (h : pageNew reader buf = .ok (pg, tr, d)) :
    d = tr.filter subHeaderGuard := by
  rcases pageNew_inv h with ⟨-, htr, hd⟩ | ⟨-, page0, hloop⟩
  · rw [htr, hd]
    rfl
  · exact (subHeaderLoop_spec hloop).2.2.2

theorem c6_witness :
    pageNew stA bufC6 = .ok (pgMeta, [ptrC6a, ptrC6b], []) ∧
    subHeaderGuard ptrC6a = false ∧ subHeaderGuard ptrC6b = false ∧
    ([] : List SubHeaderPtr) = [ptrC6a, ptrC6b].filter subHeaderGuard :=
  ⟨by decide, by decide, by decide,
   c6_dispatch_guard stA bufC6 pgMeta [ptrC6a, ptrC6b] [] (by decide)⟩

/-- Claim C7: RowSize and ColumnSize share one size gate: `check_size`
ignores its `len32`/`len64` arguments, so both extractors succeed only
when the payload length is exactly 480 for 4-byte words or 808 for
8-byte words, and every other combination is a fatal size-mismatch
error for both sub-header kinds. -/
theorem c7_size_gate (reader : ReaderSt) (page : Page) (buf : List Nat) :
    (∀ (name : String) (a b a2 b2 : Nat),
      check_size name buf reader.word_len a b = check_size name buf reader.word_len a2 b2) ∧
    (∀ pg, processRowSize reader page buf = .ok pg →
      (reader.word_len = 4 ∧ buf.length = 480) ∨ (reader.word_len = 8 ∧ buf.length = 808)) ∧
    (∀ pg, processColumnSize reader page buf = .ok pg →
      (reader.word_len = 4 ∧ buf.length = 480) ∨ (reader.word_len = 8 ∧ buf.length = 808)) ∧
    (¬((reader.word_len = 4 ∧ buf.length = 480) ∨ (reader.word_len = 8 ∧ buf.length = 808)) →
      processRowSize reader page buf =
        .err ("Invalid " ++ "row size" ++ " sub header length (" ++ toString buf.length
          ++ ") for word len " ++ toString reader.word_len) ∧
      processColumnSize reader page buf =
        .err ("Invalid " ++ "column size" ++ " sub header length (" ++ toString buf.length
          ++ ") for word len " ++ toString reader.word_len)) := by
  refine ⟨fun name a b a2 b2 => rfl, ?_, ?_, ?_⟩
  · intro pg h
    unfold processRowSize at h
    obtain ⟨u, hcs, -⟩ := Outcome.bind_eq_ok h
    unfold check_size at hcs
    split at hcs
    · assumption
    · exact absurd hcs (by simp)
  · intro pg h
    unfold processColumnSize at h
    obtain ⟨u, hcs, -⟩ := Outcome.bind_eq_ok h
    unfold check_size at hcs
    split at hcs
    · assumption
    · exact absurd hcs (by simp)
  · intro hng
    constructor
    · unfold processRowSize check_size
      rw [if_neg hng]
      rfl
    · unfold processColumnSize check_size
      rw [if_neg hng]
      rfl

set_option maxRecDepth 10000 in
theorem c7_witness :
    ((stA.word_len = 4 ∧ buf480.length = 480) ∨ (stA.word_len = 8 ∧ buf480.length = 808)) ∧
    processColumnSize stA Page.mkDefault [0] =
      .err ("Invalid " ++ "column size" ++ " sub header length ("
        ++ toString ([0] : List Nat).length ++ ") for word len " ++ toString stA.word_len) := by
  refine ⟨(c7_size_gate stA Page.mkDefault buf480).2.1 Page.mkDefault (by decide), ?_⟩
  exact ((c7_size_gate stA Page.mkDefault [0]).2.2.2 (by decide)).2

/-- Claim C8: when the ColumnSize total differs from the sum of the two
RowSize partial counts, processing still succeeds — the comparison only
emits a `warn!` log line — and the accumulated `col_count` field is set
to the ColumnSize value. -/
theorem c8_column_count_mismatch (reader : ReaderSt) (page : Page) (buf : List Nat)
    (hgate : (reader.word_len = 4 ∧ buf.length = 480) ∨ (reader.word_len = 8 ∧ buf.length = 808))
    (hmis : colCountRead reader buf ≠ page.col_count_p1 + page.col_count_p2) :
    processColumnSize reader page buf =
      .ok { page with col_count := colCountRead reader buf } := by
  unfold processColumnSize
  rw [show check_size "column size" buf reader.word_len 12 24 = .ok () from by
    unfold check_size
    rw [if_pos hgate]]
  rw [Outcome.ok_bind]
  rw [readUsizeAt_ok reader buf (1 * reader.word_len)
    (by rcases hgate with ⟨hw, hl⟩ | ⟨hw, hl⟩ <;> omega)]
  rw [Outcome.ok_bind]
  rfl

set_option maxRecDepth 10000 in
theorem c8_witness :
    colCountRead stA bufCS = 6 ∧ pgRow.col_count_p1 + pgRow.col_count_p2 = 5 ∧
    processColumnSize stA pgRow bufCS =
      .ok { pgRow with col_count := colCountRead stA bufCS } := by
  refine ⟨by decide, by decide, ?_⟩
  exact c8_column_count_mismatch stA pgRow bufCS (Or.inl ⟨rfl, by decide⟩) (by decide)

/-- Claim C9: `next_page` returns a decoded page and increments the page
counter while the counter is below `page_count`, consuming exactly one
`page_len`-byte buffer from the stream; once the counter equals
`page_count` it returns no-more-pages (`none`, not an error) without
touching the stream or the state, so every subsequent call is the same
no-op. -/
theorem c9_next_page_protocol (st : ReaderSt) (stream : List Nat) :
    (st.page_num = st.page_count → nextPage st stream = .ok (none, st, stream)) ∧
    (st.page_num < st.page_count → st.page_len ≤ stream.length →
      ∀ out, pageNew st (stream.take st.page_len) = .ok out →
        nextPage st stream =
          .ok (some out, { st with page_num := st.page_num + 1 }, stream.drop st.page_len)) := by
  constructor
  · intro he
    unfold nextPage
    rw [if_pos he]
  · intro hlt hle out hpg
    unfold nextPage
    rw [if_neg (by omega)]
    rw [show readExact st.page_len stream = .ok (stream.take st.page_len, stream.drop st.page_len)
      from by
        unfold readExact
        rw [if_pos hle]]
    rw [Outcome.ok_bind]
    dsimp only
    rw [hpg, Outcome.ok_bind]

theorem c9_witness :
    nextPage { stA with page_num := 1 } bufC3 = .ok (none, { stA with page_num := 1 }, bufC3) ∧
    nextPage stA bufC3 =
      .ok (some (pgMeta, [], []), { stA with page_num := stA.page_num + 1 },
        bufC3.drop stA.page_len) :=
  ⟨(c9_next_page_protocol { stA with page_num := 1 } bufC3).1 rfl,
   (c9_next_page_protocol stA bufC3).2 (by decide) (by decide) (pgMeta, [], []) (by decide)⟩

/-- Claim C10: page decoding slices a live sub-header payload without
bounds-checking it against the page buffer: on `bufC10` (length 48) the
parsed pointer is live (length 20, uncompressed) with
`offset + len = 60 > 48`, and decoding aborts (`Outcome.crash`, the
out-of-range slice panic) rather than producing an error value. -/
theorem c10_unchecked_slice_crash :
    SubHeaderPtr.new stA ((slotTable stA bufC10).getD 0 []) = .ok ptrC10 ∧
    subHeaderGuard ptrC10 = true ∧
    ptrC10.offset + ptrC10.len > bufC10.length ∧
    pageNew stA bufC10 = Outcome.crash ∧
    (pageNew stA bufC10).isErr = false :=
  ⟨by decide, by decide, by decide, by decide, by decide⟩
